import Mathlib

/-!
Verification of the document-translation pipeline against its specification.

The developments below are shallow embeddings of the repository's Python
sources:

* `PgQueue` embeds `backend/src/core/postgres_queue.py` (the durable
  PostgreSQL-backed work queue): message rows, `_pull_messages`,
  `_nack_message`.  SQL timestamps are modelled as natural numbers
  (seconds); each queue operation is a single atomic state transition,
  matching the fact that the source implements it as one SQL statement
  (`UPDATE ... WHERE id IN (SELECT ... FOR UPDATE SKIP LOCKED)`), so a
  concurrent history of operations is a serialization of these steps.
-/

namespace PgQueue

/-- Status values stored in the `status` column of `message_queue`. -/
inductive Status where
  | pending
  | processing
  | completed
  | failed
deriving DecidableEq, Repr

/-- A row of the `message_queue` table (columns used by the queue logic).
Timestamps (`visibility_timeout`, `scheduled_at`) are seconds as `Nat`. -/
structure QMessage where
  id : Nat
  topic : String
  message_id : String
  payload : String
  priority : Int
  status : Status
  retry_count : Nat
  max_retries : Nat
  visibility_timeout : Option Nat
  scheduled_at : Nat
deriving DecidableEq, Repr

/-- A row of the `dead_letter_queue` table. -/
structure DeadLetterRecord where
  original_message_id : String
  topic : String
  payload : String
  failure_reason : String
  retry_count : Nat
deriving DecidableEq, Repr

/-- The queue database state: the `message_queue` and `dead_letter_queue`
tables. -/
structure QueueState where
  messages : List QMessage
  dead_letters : List DeadLetterRecord
deriving DecidableEq, Repr

/-- The row-selection predicate of `_pull_messages`:
`WHERE topic = %s AND status = 'pending' AND scheduled_at <= CURRENT_TIMESTAMP`. -/
def pullEligible (topic : String) (now : Nat) (m : QMessage) : Bool :=
  decide (m.topic = topic) && decide (m.status = Status.pending) &&
    decide (m.scheduled_at ≤ now)

/-- The selection order of `_pull_messages`:
`ORDER BY priority DESC, scheduled_at ASC`. -/
def pullOrder (a b : QMessage) : Prop :=
  b.priority < a.priority ∨ (a.priority = b.priority ∧ a.scheduled_at ≤ b.scheduled_at)

instance : DecidableRel pullOrder := fun a b => by
  unfold pullOrder; exact inferInstance

instance : IsTotal QMessage pullOrder := by
  constructor
  intro a b
  unfold pullOrder
  rcases lt_trichotomy a.priority b.priority with h | h | h
  · exact Or.inr (Or.inl h)
  · omega
  · exact Or.inl (Or.inl h)

instance : IsTrans QMessage pullOrder := by
  constructor
  intro a b c hab hbc
  unfold pullOrder at *
  rcases hab with h1 | ⟨h1, h2⟩ <;> rcases hbc with h3 | ⟨h3, h4⟩ <;>
    first
      | exact Or.inl (by omega)
      | exact Or.inr (by omega)

/-- The inner `SELECT id ... ORDER BY priority DESC, scheduled_at ASC LIMIT %s`
of `_pull_messages`. -/
def pullSelected (st : QueueState) (now : Nat) (topic : String)
    (maxMessages : Nat) : List QMessage :=
  (List.insertionSort pullOrder (st.messages.filter (pullEligible topic now))).take
    maxMessages

/-- The row update of `_pull_messages`:
`SET status = 'processing', visibility_timeout = %s` applied to every row
whose `id` was selected. -/
def pullUpdate (ids : List Nat) (now visT : Nat) (m : QMessage) : QMessage :=
  if m.id ∈ ids then
    { m with status := Status.processing, visibility_timeout := some (now + visT) }
  else m

/-- `PostgreSQLQueue._pull_messages`: one atomic
`UPDATE ... WHERE id IN (SELECT ... LIMIT maxMessages FOR UPDATE SKIP LOCKED)
RETURNING ...` step.  Returns the post-update state together with the
returned (updated) rows. -/
def pullMessages (st : QueueState) (now : Nat) (topic : String)
    (maxMessages visT : Nat) : QueueState × List QMessage :=
  let sel := pullSelected st now topic maxMessages
  ({ st with
      messages := st.messages.map (pullUpdate (sel.map (fun m => m.id)) now visT) },
   sel.map (fun m =>
     { m with status := Status.processing, visibility_timeout := some (now + visT) }))

/-- The dead-letter row inserted by `_nack_message` when the retry budget is
exhausted. -/
def mkDeadLetter (message_id : String) (row : QMessage) : DeadLetterRecord :=
  { original_message_id := message_id
    topic := row.topic
    payload := row.payload
    failure_reason := "Max retries exceeded"
    retry_count := row.retry_count }

/-- The backoff delay of `_nack_message`: `min(300, 2 ** retry_count)`. -/
def retryDelay (retry_count : Nat) : Nat := min 300 (2 ^ retry_count)

/-- The body of `_nack_message` once the row has been fetched: dead-letter
branch when `retry_count >= max_retries`, requeue branch otherwise. -/
def nackApply (st : QueueState) (now : Nat) (message_id : String)
    (row : QMessage) : QueueState :=
  if row.max_retries ≤ row.retry_count then
      { st with
          dead_letters := st.dead_letters ++ [mkDeadLetter message_id row]
          messages := st.messages.map (fun m =>
            if m.message_id = message_id then { m with status := Status.failed } else m) }
    else
      { st with
          messages := st.messages.map (fun m =>
            if m.message_id = message_id then
              { m with
                  status := Status.pending
                  retry_count := m.retry_count + 1
                  scheduled_at := now + retryDelay row.retry_count
                  visibility_timeout := none }
            else m) }

/-- `PostgreSQLQueue._nack_message`: fetches the row by `message_id` (the
column carries a UNIQUE constraint); if `retry_count >= max_retries` inserts a
dead-letter row and sets `status = 'failed'`, otherwise requeues with
`status = 'pending'`, `retry_count + 1`,
`scheduled_at = now + min(300, 2 ** retry_count)` and
`visibility_timeout = NULL`. -/
def nackMessage (st : QueueState) (now : Nat) (message_id : String) : QueueState :=
  match st.messages.find? (fun m => decide (m.message_id = message_id)) with
  | none => st
  | some row => nackApply st now message_id row

/-- Runs one nack per entry of `nows` (each entry the clock value of that
nack), all against the same `message_id`. -/
def iterNack (st : QueueState) (nows : List Nat) (message_id : String) : QueueState :=
  nows.foldl (fun s t => nackMessage s t message_id) st

/-- Runs a sequence of pulls; each tuple is `(now, topic, maxMessages,
visibilityTimeout)`.  Returns the final state and all returned rows. -/
def runPulls : QueueState → List (Nat × String × Nat × Nat) → QueueState × List QMessage
  | st, [] => (st, [])
  | st, a :: rest =>
    let r := pullMessages st a.1 a.2.1 a.2.2.1 a.2.2.2
    let r2 := runPulls r.1 rest
    (r2.1, r.2 ++ r2.2)

/-- Number of dead-letter rows recorded for one original message id. -/
def countDeadLetters (dls : List DeadLetterRecord) (message_id : String) : Nat :=
  dls.countP (fun d => decide (d.original_message_id = message_id))

/-- A sample pending message, used to instantiate the pull theorems. -/
def msgA : QMessage :=
  { id := 1, topic := "t", message_id := "mA", payload := "p", priority := 0,
    status := Status.pending, retry_count := 0, max_retries := 3,
    visibility_timeout := none, scheduled_at := 0 }

/-- A second sample pending message on the same topic. -/
def msgB : QMessage := { msgA with id := 2, message_id := "mB" }

/-- A sample queue holding the two pending messages. -/
def stAB : QueueState := { messages := [msgA, msgB], dead_letters := [] }

end PgQueue

/-!
The `Orchestrator` namespace embeds
`SeekHub_Demo-main/backend/src/core/translation_orchestrator.py`:
`CloudTranslationOrchestrator.split_into_chapters`.  Text is a `List Char`
(Python operates on code points).  The five chapter-marker regexes are
embedded as atom lists with greedy matching and no backtracking; for these
patterns greedy matching coincides with Python `re` because in each pattern
the character class of every quantified atom is disjoint from the characters
that can start the rest of the pattern.  Character classes (`\s`, `\d`) are
taken over their ASCII range.  `re.split` removes the matched separators; so
does `reSplit` below.
-/

namespace Orchestrator

/-- Python regex `\s` (whitespace), ASCII range. -/
def isSpace (c : Char) : Bool :=
  c == ' ' || c == '\t' || c == '\n' || c == '\r' || c == '\x0b' || c == '\x0c'

/-- The character class `[一二三四五六七八九十百千万0-9]` of the Chinese
chapter-heading pattern. -/
def isCnNumeral (c : Char) : Bool :=
  (['一', '二', '三', '四', '五', '六', '七', '八', '九', '十', '百', '千',
    '万'] : List Char).contains c || c.isDigit

/-- The character class `[IVX]` of the Roman-numeral heading pattern. -/
def isRoman (c : Char) : Bool :=
  c == 'I' || c == 'V' || c == 'X'

/-- One regex atom: a literal character, a one-or-more character class, or a
zero-or-more character class. -/
inductive RAtom where
  | lit (c : Char)
  | plus (cls : Char → Bool)
  | star (cls : Char → Bool)

/-- Length of the longest run of leading characters in the class. -/
def leadCount (cls : Char → Bool) : List Char → Nat
  | [] => 0
  | c :: rest => if cls c then leadCount cls rest + 1 else 0

/-- Greedy match of an atom list at the head of the text, returning the
number of characters consumed. -/
def matchAtoms : List RAtom → List Char → Option Nat
  | [], _ => some 0
  | RAtom.lit _ :: _, [] => none
  | RAtom.lit c :: as, x :: s =>
    if x = c then (matchAtoms as s).map (fun k => k + 1) else none
  | RAtom.plus cls :: as, s =>
    let k := leadCount cls s
    if k = 0 then none else (matchAtoms as (s.drop k)).map (fun j => j + k)
  | RAtom.star cls :: as, s =>
    let k := leadCount cls s
    (matchAtoms as (s.drop k)).map (fun j => j + k)

/-- Scan of `re.split(pattern, content)`: the text between consecutive
matches becomes the segments; the matched separators are removed.  The
accumulator holds the current segment reversed.  Every step consumes at
least one character, so fuel equal to the text length makes the zero-fuel
branch unreachable; the recursion is structural on the fuel so that the
scan evaluates inside the kernel. -/
def reSplitAux (pat : List RAtom) : Nat → List Char → List Char → List (List Char)
  | _, [], acc => [acc.reverse]
  | 0, s, acc => [acc.reverse ++ s]
  | fuel + 1, c :: rest, acc =>
    match matchAtoms pat (c :: rest) with
    | some (k + 1) => acc.reverse :: reSplitAux pat fuel (rest.drop k) []
    | _ => reSplitAux pat fuel rest (c :: acc)

/-- `re.split(pattern, content)`. -/
def reSplit (pat : List RAtom) (content : List Char) : List (List Char) :=
  reSplitAux pat content.length content []

/-- Python `str.strip()` (whitespace from both ends). -/
def pyStrip (s : List Char) : List Char :=
  ((s.dropWhile isSpace).reverse.dropWhile isSpace).reverse

/-- Scan of Python `content.split("\n\n")`. -/
def splitParagraphsAux : List Char → List Char → List (List Char)
  | [], acc => [acc.reverse]
  | '\n' :: '\n' :: rest, acc => acc.reverse :: splitParagraphsAux rest []
  | c :: rest, acc => splitParagraphsAux rest (c :: acc)

/-- Python `content.split("\n\n")`. -/
def splitParagraphs (content : List Char) : List (List Char) :=
  splitParagraphsAux content []

/-- Python `'\n\n'.join(...)`. -/
def joinSep (sep : List Char) : List (List Char) → List Char
  | [] => []
  | [x] => x
  | x :: y :: rest => x ++ sep ++ joinSep sep (y :: rest)

/-- Consecutive slices `paragraphs[i:i+k]` for `i in range(0, len, k)`
(`k >= 1` in the source, since `chapter_size = max(1, ...)`); fuel as in
`reSplitAux`. -/
def chunksF {α : Type} : Nat → Nat → List α → List (List α)
  | _, _, [] => []
  | 0, _, l => [l]
  | fuel + 1, k, x :: xs => (x :: xs).take k :: chunksF fuel k (xs.drop (k - 1))

/-- Consecutive slices of size `k` (`k >= 1` in the source). -/
def chunks {α : Type} (k : Nat) (l : List α) : List (List α) :=
  chunksF l.length k l

/-- Pattern `Chapter\s+\d+`. -/
def patChapter : List RAtom :=
  [RAtom.lit 'C', RAtom.lit 'h', RAtom.lit 'a', RAtom.lit 'p', RAtom.lit 't',
   RAtom.lit 'e', RAtom.lit 'r', RAtom.plus isSpace, RAtom.plus Char.isDigit]

/-- Pattern `CHAPTER\s+\d+`. -/
def patChapterUpper : List RAtom :=
  [RAtom.lit 'C', RAtom.lit 'H', RAtom.lit 'A', RAtom.lit 'P', RAtom.lit 'T',
   RAtom.lit 'E', RAtom.lit 'R', RAtom.plus isSpace, RAtom.plus Char.isDigit]

/-- Pattern `第\s*[一二三四五六七八九十百千万0-9]+\s*章`. -/
def patCnChapter : List RAtom :=
  [RAtom.lit '第', RAtom.star isSpace, RAtom.plus isCnNumeral,
   RAtom.star isSpace, RAtom.lit '章']

/-- Pattern `\n\s*\d+\.\s+`. -/
def patNumberedHeading : List RAtom :=
  [RAtom.lit '\n', RAtom.star isSpace, RAtom.plus Char.isDigit, RAtom.lit '.',
   RAtom.plus isSpace]

/-- Pattern `\n\s*[IVX]+\.\s*`. -/
def patRomanHeading : List RAtom :=
  [RAtom.lit '\n', RAtom.star isSpace, RAtom.plus isRoman, RAtom.lit '.',
   RAtom.star isSpace]

/-- The `chapter_patterns` list of `split_into_chapters`, in source order. -/
def chapter_patterns : List (List RAtom) :=
  [patChapter, patChapterUpper, patCnChapter, patNumberedHeading, patRomanHeading]

/-- `CloudTranslationOrchestrator.split_into_chapters`: tries each chapter
pattern in order and returns the stripped nonempty segments of the first
pattern that produced more than one segment; otherwise groups paragraphs into
at most 20 chapters when there are more than 20 paragraphs; otherwise the
whole content is one chapter. -/
def split_into_chapters (content : List Char) : List (List Char) :=
  match chapter_patterns.find? (fun p => decide (1 < (reSplit p content).length)) with
  | some p => ((reSplit p content).map pyStrip).filter (fun s => decide (s ≠ []))
  | none =>
    let paragraphs := splitParagraphs content
    if 20 < paragraphs.length then
      let chapter_size := max 1 (paragraphs.length / 20)
      ((chunks chapter_size paragraphs).map (joinSep ['\n', '\n'])).filter
        (fun s => decide (pyStrip s ≠ []))
    else [content]

/-- Concatenation of the chapter texts in index order. -/
def concatChapters (chs : List (List Char)) : List Char :=
  chs.foldr (fun a b => a ++ b) []

end Orchestrator

/-!
The `Combination` namespace embeds
`SeekHub_Demo-main/backend/src/workers/combination_worker.py`
(`CombinationWorker.process_combination_task`).  The Firestore query of each
polling round returns the chapters completed so far, ordered by
`chapter_index` ascending (`db_helper.find_documents(...,
order_by="chapter_index")`); a completion schedule is modelled as one new
completed chapter per polling round, so round `i` observes the first `i + 1`
completions sorted by index.  Chapter texts are assumed present in storage
(`blob.exists()` true), matching a run in which every completed chapter
uploaded its translation.
-/

namespace Combination

/-- A completed chapter as the worker sees it: its `chapter_index` and the
translated text downloaded from storage. -/
structure Chapter where
  index : Nat
  text : String
deriving DecidableEq, Repr

/-- Ascending `chapter_index` order (the Firestore `order_by` and the final
`combined_chapters.sort(key=lambda x: x['index'])`). -/
def chapterLE (a b : Chapter) : Prop := a.index ≤ b.index

instance : DecidableRel chapterLE := fun a b => by
  unfold chapterLE; exact inferInstance

/-- The polling loop of `process_combination_task`: each round takes the new
suffix `chapters[last_check_count:]` of the index-sorted snapshot, appends it
to `combined_chapters`, and stops once `len(combined_chapters)` reaches
`total_chapters`. -/
def processPolls (total : Nat) :
    List (List Chapter) → Nat → List Chapter → List Chapter
  | [], _, combined => combined
  | snap :: rest, lastCheckCount, combined =>
    if total ≤ combined.length then combined
    else
      let newChapters := snap.drop lastCheckCount
      if newChapters.isEmpty then processPolls total rest lastCheckCount combined
      else processPolls total rest snap.length (combined ++ newChapters)

/-- The final combination of `process_combination_task`: sort the collected
chapters by `index` and concatenate, a `"\n\n第 {index + 1} 章\n\n"` boundary
marker before each chapter. -/
def finalDocument (combined : List Chapter) : String :=
  (List.insertionSort chapterLE combined).foldl
    (fun acc ch => acc ++ "\n\n第 " ++ toString (ch.index + 1) ++ " 章\n\n" ++ ch.text)
    ""

/-- Snapshot sequence of a completion schedule: after `i + 1` completions the
query returns those chapters sorted by `chapter_index`. -/
def completionSnapshots (order : List Chapter) : List (List Chapter) :=
  (List.range order.length).map
    (fun i => List.insertionSort chapterLE (order.take (i + 1)))

/-- The final document produced by the combination worker for a book whose
chapters complete in the given order. -/
def workerFinalText (order : List Chapter) : String :=
  finalDocument (processPolls order.length (completionSnapshots order) 0 [])

end Combination

/-!
The `Gemini` namespace embeds
`SeekHub_Demo-main/backend/src/core/gemini_client.py`: the credential-health
logic of `OptimizedGeminiAPIPool` (`record_error`,
`_reactivate_key_after_cooldown`) and the retry loop of
`HighSpeedGeminiTranslator._translate_with_retry`.  The external backend is a
function from attempt number to its outcome; `get_best_key` is a function
from attempt number to the credential it hands out (a fresh acquisition per
attempt, as in the source); the `asyncio.sleep` backoffs and the pool calls
are recorded as an event trace.  The TTL cache is a key-value list queried
with first-match lookup; claims conditioned on "within the TTL" hold the
cache fixed between the calls.
-/

namespace Gemini

/-- The fields of `APIKeyStatus` read or written by the health logic. -/
structure APIKeyStatus where
  key : String
  request_count : Nat
  success_count : Nat
  error_count : Nat
  is_active : Bool
deriving DecidableEq, Repr

/-- `OptimizedGeminiAPIPool.record_error` on the matching key: increments
`error_count`; once it reaches 5 the key is deactivated and
`_reactivate_key_after_cooldown` is scheduled. -/
def record_error (ks : APIKeyStatus) : APIKeyStatus :=
  if 5 ≤ ks.error_count + 1 then
    { ks with error_count := ks.error_count + 1, is_active := false }
  else { ks with error_count := ks.error_count + 1 }

/-- Cooldown seconds computed by `_reactivate_key_after_cooldown`:
`min(300, 60 * (2 ** (error_count - 5)))`. -/
def reactivation_cooldown (ks : APIKeyStatus) : Nat :=
  min 300 (60 * 2 ^ (ks.error_count - 5))

/-- State change applied once the cooldown sleep elapses:
`is_active = True`, `error_count = max(0, error_count - 2)` (truncated
subtraction on `Nat`). -/
def reactivate_key_after_cooldown (ks : APIKeyStatus) : APIKeyStatus :=
  { ks with is_active := true, error_count := ks.error_count - 2 }

/-- A sample credential one error away from deactivation, used to instantiate
the recovery theorem. -/
def ksSample : APIKeyStatus :=
  { key := "k", request_count := 9, success_count := 4, error_count := 4,
    is_active := true }

/-- Outcome of one backend attempt of `_translate_with_retry`: a response
with text, a falsy/empty response (the `if response and response.text:` guard
fails without an exception), or an exception. -/
inductive BackendResponse where
  | ok (text : String)
  | empty
  | exc
deriving DecidableEq, Repr

/-- Observable actions of one `_translate_with_retry` call. -/
inductive TransEvent where
  | getBestKey (key : String)
  | recordSuccess (key : String)
  | recordError (key : String)
  | sleep (seconds : Nat)
deriving DecidableEq, Repr

/-- Result of one `_translate_with_retry` call: the returned value, the cache
afterwards, the event trace, and the number of attempts performed. -/
structure TransRun where
  result : Option String
  cache : List (String × String)
  events : List TransEvent
  backendCalls : Nat
deriving DecidableEq, Repr

/-- Python `text[:100]` (code-point slice). -/
def pyTakeStr (s : String) (n : Nat) : String := String.mk (s.data.take n)

/-- Python `str.strip()` on `String`. -/
def pyStripStr (s : String) : String := String.mk (Orchestrator.pyStrip s.data)

/-- The cache key of `_translate_with_retry` and `translate_text_stream`:
`f"{text[:100]}:{source_lang}:{target_lang}"`. -/
def cacheKey (text source_lang target_lang : String) : String :=
  pyTakeStr text 100 ++ ":" ++ source_lang ++ ":" ++ target_lang

/-- The `for attempt in range(max_retries)` loop of `_translate_with_retry`.
Structural recursion on the remaining attempts (`fuel`); `attempt` is the
current attempt index, so the attempt is the last one exactly when
`fuel = 0` inside the body.  On success the stripped text is cached and
returned; on an empty response the loop silently moves to the next attempt;
on an exception the error is recorded on the acquired credential and, unless
the attempt was the last, the loop sleeps `2 ** attempt` seconds; an
exhausted loop returns `None`. -/
def translateLoop (backend : Nat → BackendResponse) (keyOf : Nat → String)
    (ck : String) : Nat → Nat → List (String × String) → TransRun
  | _, 0, cache => { result := none, cache := cache, events := [], backendCalls := 0 }
  | attempt, fuel + 1, cache =>
    let key := keyOf attempt
    match backend attempt with
    | BackendResponse.ok text =>
      let v := pyStripStr text
      { result := some v
        cache := (ck, v) :: cache
        events := [TransEvent.getBestKey key, TransEvent.recordSuccess key]
        backendCalls := 1 }
    | BackendResponse.empty =>
      let r := translateLoop backend keyOf ck (attempt + 1) fuel cache
      { r with
          events := TransEvent.getBestKey key :: r.events
          backendCalls := r.backendCalls + 1 }
    | BackendResponse.exc =>
      if fuel = 0 then
        { result := none
          cache := cache
          events := [TransEvent.getBestKey key, TransEvent.recordError key]
          backendCalls := 1 }
      else
        let r := translateLoop backend keyOf ck (attempt + 1) fuel cache
        { r with
            events := TransEvent.getBestKey key :: TransEvent.recordError key ::
              TransEvent.sleep (2 ^ attempt) :: r.events
            backendCalls := r.backendCalls + 1 }

/-- `HighSpeedGeminiTranslator._translate_with_retry`: returns the cached
translation when the cache key is present, otherwise runs the retry loop
from attempt 0. -/
def translate_with_retry (cache : List (String × String))
    (backend : Nat → BackendResponse) (keyOf : Nat → String)
    (text source_lang target_lang : String) (max_retries : Nat) : TransRun :=
  match cache.lookup (cacheKey text source_lang target_lang) with
  | some v => { result := some v, cache := cache, events := [], backendCalls := 0 }
  | none => translateLoop backend keyOf (cacheKey text source_lang target_lang)
      0 max_retries cache

end Gemini

namespace PgQueue

/-- A message in the rows selected by a pull was, in the pre-state, a pending
message of the pulled topic whose `scheduled_at` had passed. -/
theorem mem_pullSelected {st : QueueState} {now : Nat} {topic : String}
    {maxMessages : Nat} {m : QMessage}
    (h : m ∈ pullSelected st now topic maxMessages) :
    m ∈ st.messages ∧ m.topic = topic ∧ m.status = Status.pending ∧
      m.scheduled_at ≤ now := by
  unfold pullSelected at h
  have h2 : m ∈ List.insertionSort pullOrder
      (st.messages.filter (pullEligible topic now)) := List.take_subset _ _ h
  have h3 : m ∈ st.messages.filter (pullEligible topic now) :=
    (List.perm_insertionSort pullOrder _).mem_iff.mp h2
  have h4 := List.mem_filter.mp h3
  refine ⟨h4.1, ?_, ?_, ?_⟩ <;>
    · have h5 := h4.2
      simp only [pullEligible, Bool.and_eq_true, decide_eq_true_eq] at h5
      tauto

/-- The record update applied to returned rows does not change the fields
that the selection order reads. -/
theorem pullOrder_update {now visT : Nat} {a b : QMessage}
    (h : pullOrder a b) :
    pullOrder
      { a with status := Status.processing, visibility_timeout := some (now + visT) }
      { b with status := Status.processing, visibility_timeout := some (now + visT) } := h

/-- C3: `Pull(topic, maxMessages, visibilityTimeout)` returns at most
`maxMessages` rows, in `priority DESC, scheduled_at ASC` order; every returned
row was a pending row of the topic with `scheduled_at <= now` at selection
time; every returned row is returned (and stored) with
`status = processing` and `visibility_timeout = now + visibilityTimeout`. -/
theorem pull_contract (st : QueueState) (now : Nat) (topic : String)
    (maxMessages visT : Nat) :
    ((pullMessages st now topic maxMessages visT).2.length ≤ maxMessages) ∧
    List.Sorted pullOrder (pullMessages st now topic maxMessages visT).2 ∧
    (∀ m ∈ (pullMessages st now topic maxMessages visT).2,
        m.status = Status.processing ∧ m.visibility_timeout = some (now + visT)) ∧
    (∀ m ∈ (pullMessages st now topic maxMessages visT).2,
        ∃ m0 ∈ st.messages, m0.topic = topic ∧ m0.status = Status.pending ∧
          m0.scheduled_at ≤ now ∧
          m = { m0 with status := Status.processing,
                        visibility_timeout := some (now + visT) }) ∧
    (∀ m ∈ (pullMessages st now topic maxMessages visT).2,
      ∀ m2 ∈ (pullMessages st now topic maxMessages visT).1.messages,
        m2.id = m.id →
          m2.status = Status.processing ∧ m2.visibility_timeout = some (now + visT)) := by
  refine ⟨?_, ?_, ?_, ?_, ?_⟩
  · simp only [pullMessages, List.length_map, pullSelected, List.length_take]
    omega
  · have hs : List.Sorted pullOrder (pullSelected st now topic maxMessages) := by
      unfold pullSelected
      exact (List.sorted_insertionSort pullOrder _).sublist (List.take_sublist _ _)
    simpa only [pullMessages] using hs.map _ (fun a b h => pullOrder_update h)
  · intro m hm
    simp only [pullMessages, List.mem_map] at hm
    obtain ⟨m0, _, rfl⟩ := hm
    exact ⟨rfl, rfl⟩
  · intro m hm
    simp only [pullMessages, List.mem_map] at hm
    obtain ⟨m0, hm0, rfl⟩ := hm
    have h := mem_pullSelected hm0
    exact ⟨m0, h.1, h.2.1, h.2.2.1, h.2.2.2, rfl⟩
  · intro m hm m2 hm2 hid
    simp only [pullMessages, List.mem_map] at hm hm2
    obtain ⟨m0, hm0, rfl⟩ := hm
    obtain ⟨m1, _, rfl⟩ := hm2
    have hid0 : m0.id ∈ (pullSelected st now topic maxMessages).map (fun m => m.id) :=
      List.mem_map.mpr ⟨m0, hm0, rfl⟩
    by_cases hmem : m1.id ∈ (pullSelected st now topic maxMessages).map (fun m => m.id)
    · simp [pullUpdate, hmem]
    · exfalso
      apply hmem
      have : (pullUpdate ((pullSelected st now topic maxMessages).map (fun m => m.id))
          now visT m1).id = m1.id := by
        unfold pullUpdate
        split <;> rfl
      rw [this] at hid
      rw [hid]
      exact hid0

/-- A pending message of the post-pull state was already pending (and not
selected) before the pull. -/
theorem pending_after_pull {st : QueueState} {now : Nat} {topic : String}
    {maxMessages visT : Nat} {m : QMessage}
    (hm : m ∈ (pullMessages st now topic maxMessages visT).1.messages)
    (hp : m.status = Status.pending) :
    m.id ∉ (pullSelected st now topic maxMessages).map (fun x => x.id) := by
  simp only [pullMessages, List.mem_map] at hm
  obtain ⟨m0, _, rfl⟩ := hm
  intro hmem
  unfold pullUpdate at hp hmem
  by_cases h : m0.id ∈ (pullSelected st now topic maxMessages).map (fun x => x.id)
  · simp [h] at hp
  · simp [h] at hmem

/-- C4: two pulls against the same topic never hand out the same message: the
pull is one atomic read-modify-write, so a concurrent history of two pulls is
one of the two serializations, and in either one the second pull only selects
rows that are still `pending`, while every row handed out by the first pull —
and every row sharing its `id` — was set to `processing`. -/
theorem pull_disjoint (st : QueueState) (now1 : Nat) (topic : String)
    (mm1 vt1 now2 mm2 vt2 : Nat) :
    ∀ m1 ∈ (pullMessages st now1 topic mm1 vt1).2,
    ∀ m2 ∈ (pullMessages (pullMessages st now1 topic mm1 vt1).1 now2 topic mm2 vt2).2,
      m1.id ≠ m2.id := by
  intro m1 hm1 m2 hm2 heq
  simp only [pullMessages, List.mem_map] at hm1 hm2
  obtain ⟨s1, hs1, rfl⟩ := hm1
  obtain ⟨s2, hs2, rfl⟩ := hm2
  have h2 := mem_pullSelected hs2
  have hnot : s2.id ∉ (pullSelected st now1 topic mm1).map (fun x => x.id) :=
    pending_after_pull h2.1 h2.2.2.1
  have hin : s1.id ∈ (pullSelected st now1 topic mm1).map (fun x => x.id) :=
    List.mem_map.mpr ⟨s1, hs1, rfl⟩
  have hids : s1.id = s2.id := heq
  rw [hids] at hin
  exact hnot hin

/-- Witness for `pull_contract` at a concrete two-message state. -/
theorem pull_contract_witness :
    (pullMessages stAB 10 "t" 1 60).2.length ≤ 1 :=
  (pull_contract stAB 10 "t" 1 60).1

/-- Witness for `pull_disjoint`: two successive single-message pulls on a
two-message queue hand out the two distinct messages. -/
theorem pull_disjoint_witness :
    ({ msgA with status := Status.processing, visibility_timeout := some 70 } ∈
      (pullMessages stAB 10 "t" 1 60).2) ∧
    ({ msgB with status := Status.processing, visibility_timeout := some 50 } ∈
      (pullMessages (pullMessages stAB 10 "t" 1 60).1 20 "t" 1 30).2) ∧
    ({ msgA with status := Status.processing, visibility_timeout := some 70 } : QMessage).id ≠
      ({ msgB with status := Status.processing, visibility_timeout := some 50 } : QMessage).id :=
  ⟨by decide, by decide,
   pull_disjoint stAB 10 "t" 1 60 20 1 30
     { msgA with status := Status.processing, visibility_timeout := some 70 }
     (by decide)
     { msgB with status := Status.processing, visibility_timeout := some 50 }
     (by decide)⟩

/-- When the fetch finds a row, `nackMessage` is `nackApply` on that row. -/
theorem nackMessage_eq_apply {st : QueueState} {now : Nat} {mid : String}
    {row : QMessage}
    (hfind : st.messages.find? (fun m => decide (m.message_id = mid)) = some row) :
    nackMessage st now mid = nackApply st now mid row := by
  unfold nackMessage
  rw [hfind]

/-- C5: `Nack(messageKey)` on an existing message either dead-letters it
(exactly one dead-letter row appended, `status = failed`) when
`retry_count >= max_retries`, or requeues it with `retry_count + 1`,
`status = pending`, `scheduled_at = now + min(300, 2 ** retry_count)` and a
cleared visibility deadline. -/
theorem nack_contract (st : QueueState) (now : Nat) (mid : String)
    (row : QMessage)
    (hfind : st.messages.find? (fun m => decide (m.message_id = mid)) = some row) :
    (row.max_retries ≤ row.retry_count →
      (nackMessage st now mid).dead_letters =
          st.dead_letters ++ [mkDeadLetter mid row] ∧
      { row with status := Status.failed } ∈ (nackMessage st now mid).messages ∧
      ∀ m ∈ (nackMessage st now mid).messages,
        m.message_id = mid → m.status = Status.failed) ∧
    (row.retry_count < row.max_retries →
      (nackMessage st now mid).dead_letters = st.dead_letters ∧
      { row with
          status := Status.pending
          retry_count := row.retry_count + 1
          scheduled_at := now + min 300 (2 ^ row.retry_count)
          visibility_timeout := none } ∈ (nackMessage st now mid).messages ∧
      ∀ m ∈ (nackMessage st now mid).messages,
        m.message_id = mid →
          m.status = Status.pending ∧ m.visibility_timeout = none) := by
  have hrowmem : row ∈ st.messages := List.mem_of_find?_eq_some hfind
  have hrowmid : row.message_id = mid := by
    have h := List.find?_some hfind
    simpa using h
  rw [nackMessage_eq_apply hfind]
  constructor
  · intro hge
    unfold nackApply
    rw [if_pos hge]
    refine ⟨rfl, ?_, ?_⟩
    · exact List.mem_map.mpr ⟨row, hrowmem, by rw [if_pos hrowmid]⟩
    · intro m hm hmid
      obtain ⟨m0, hm0, rfl⟩ := List.mem_map.mp hm
      by_cases h : m0.message_id = mid
      · rw [if_pos h]
      · rw [if_neg h] at hmid ⊢
        exact absurd hmid h
  · intro hlt
    unfold nackApply
    rw [if_neg (by omega)]
    refine ⟨rfl, ?_, ?_⟩
    · refine List.mem_map.mpr ⟨row, hrowmem, ?_⟩
      rw [if_pos hrowmid]
      rfl
    · intro m hm hmid
      obtain ⟨m0, hm0, rfl⟩ := List.mem_map.mp hm
      by_cases h : m0.message_id = mid
      · rw [if_pos h]
        exact ⟨rfl, rfl⟩
      · rw [if_neg h] at hmid ⊢
        exact absurd hmid h

/-- Witness for `nack_contract` at a concrete one-message state, requeue
branch. -/
theorem nack_contract_witness :
    ({ id := 1, topic := "t", message_id := "m1", payload := "p", priority := 0,
       status := Status.pending, retry_count := 1, max_retries := 3,
       visibility_timeout := none, scheduled_at := 7 + min 300 (2 ^ 0) } : QMessage) ∈
      (nackMessage
        { messages := [{ id := 1, topic := "t", message_id := "m1", payload := "p",
                         priority := 0, status := Status.processing, retry_count := 0,
                         max_retries := 3, visibility_timeout := some 30,
                         scheduled_at := 0 }],
          dead_letters := [] } 7 "m1").messages :=
  ((nack_contract
      { messages := [{ id := 1, topic := "t", message_id := "m1", payload := "p",
                       priority := 0, status := Status.processing, retry_count := 0,
                       max_retries := 3, visibility_timeout := some 30,
                       scheduled_at := 0 }],
        dead_letters := [] } 7 "m1"
      { id := 1, topic := "t", message_id := "m1", payload := "p", priority := 0,
        status := Status.processing, retry_count := 0, max_retries := 3,
        visibility_timeout := some 30, scheduled_at := 0 }
      (by decide)).2 (by decide)).2.1

/-- C6 counterexample: with `max_retries = 1`, one nack — the message nacked
`maxRetries` times — produces no dead-letter row at all (the code only
dead-letters on the nack after `retry_count` has already reached
`max_retries`), and the message is returned again by a later pull. -/
theorem nack_budget_counterexample :
    countDeadLetters
      (nackMessage
        { messages := [{ id := 1, topic := "t", message_id := "m1", payload := "p",
                         priority := 0, status := Status.processing, retry_count := 0,
                         max_retries := 1, visibility_timeout := some 30,
                         scheduled_at := 0 }],
          dead_letters := [] } 0 "m1").dead_letters "m1" = 0 ∧
    (runPulls
      (nackMessage
        { messages := [{ id := 1, topic := "t", message_id := "m1", payload := "p",
                         priority := 0, status := Status.processing, retry_count := 0,
                         max_retries := 1, visibility_timeout := some 30,
                         scheduled_at := 0 }],
          dead_letters := [] } 0 "m1")
      [(400, "t", 5, 60)]).2.map (fun x => x.message_id) = ["m1"] := by
  decide

/-- One nack below the retry budget keeps a uniquely-keyed tracked row in the
queue, bumps its retry count and adds no dead-letter row. -/
theorem nack_step_invariant {st : QueueState} {now : Nat} {mid : String}
    {row : QMessage}
    (hmem : row ∈ st.messages)
    (hall : ∀ m ∈ st.messages, m.message_id = mid → m = row)
    (hmid : row.message_id = mid)
    (hlt : row.retry_count < row.max_retries) :
    ∃ row2, row2 ∈ (nackMessage st now mid).messages ∧
      (∀ m ∈ (nackMessage st now mid).messages, m.message_id = mid → m = row2) ∧
      row2.message_id = mid ∧ row2.retry_count = row.retry_count + 1 ∧
      row2.max_retries = row.max_retries ∧
      (nackMessage st now mid).dead_letters = st.dead_letters := by
  have hfind : st.messages.find? (fun m => decide (m.message_id = mid)) = some row := by
    cases hf : st.messages.find? (fun m => decide (m.message_id = mid)) with
    | none =>
      exfalso
      have h := List.find?_eq_none.mp hf row hmem
      simp [hmid] at h
    | some y =>
      have hy := List.find?_some hf
      have hymem := List.mem_of_find?_eq_some hf
      simp only [decide_eq_true_eq] at hy
      rw [hall y hymem hy]
  rw [nackMessage_eq_apply hfind]
  unfold nackApply
  rw [if_neg (by omega)]
  refine ⟨{ row with
      status := Status.pending
      retry_count := row.retry_count + 1
      scheduled_at := now + retryDelay row.retry_count
      visibility_timeout := none }, ?_, ?_, hmid, rfl, rfl, rfl⟩
  · refine List.mem_map.mpr ⟨row, hmem, ?_⟩
    rw [if_pos hmid]
  · intro m hm hmmid
    obtain ⟨m0, hm0, rfl⟩ := List.mem_map.mp hm
    by_cases h : m0.message_id = mid
    · rw [if_pos h]
      rw [hall m0 hm0 h]
    · rw [if_neg h] at hmmid ⊢
      exact absurd hmmid h

/-- Iterating nacks while the retry budget lasts: the uniquely-keyed tracked
row accumulates one retry per nack and no dead-letter row appears. -/
theorem iterNack_invariant {mid : String} :
    ∀ (nows : List Nat) (st : QueueState) (row : QMessage),
    row ∈ st.messages →
    (∀ m ∈ st.messages, m.message_id = mid → m = row) →
    row.message_id = mid →
    row.retry_count + nows.length ≤ row.max_retries →
    ∃ row2, row2 ∈ (iterNack st nows mid).messages ∧
      (∀ m ∈ (iterNack st nows mid).messages, m.message_id = mid → m = row2) ∧
      row2.message_id = mid ∧
      row2.retry_count = row.retry_count + nows.length ∧
      row2.max_retries = row.max_retries ∧
      (iterNack st nows mid).dead_letters = st.dead_letters := by
  intro nows
  induction nows with
  | nil =>
    intro st row hmem hall hmid _
    exact ⟨row, hmem, hall, hmid, rfl, rfl, rfl⟩
  | cons t ts ih =>
    intro st row hmem hall hmid hbound
    have hlt : row.retry_count < row.max_retries := by
      simp only [List.length_cons] at hbound
      omega
    obtain ⟨row1, hmem1, hall1, hmid1, hrc1, hmax1, hdl1⟩ :=
      nack_step_invariant hmem hall hmid hlt
    have hbound1 : row1.retry_count + ts.length ≤ row1.max_retries := by
      simp only [List.length_cons] at hbound
      omega
    obtain ⟨row2, hmem2, hall2, hmid2, hrc2, hmax2, hdl2⟩ :=
      ih (nackMessage st t mid) row1 hmem1 hall1 hmid1 hbound1
    refine ⟨row2, ?_, ?_, hmid2, ?_, ?_, ?_⟩
    · simpa [iterNack, List.foldl_cons] using hmem2
    · intro m hm
      apply hall2
      simpa [iterNack, List.foldl_cons] using hm
    · simp only [List.length_cons]
      omega
    · omega
    · show (iterNack st (t :: ts) mid).dead_letters = st.dead_letters
      have : iterNack st (t :: ts) mid = iterNack (nackMessage st t mid) ts mid := by
        simp [iterNack, List.foldl_cons]
      rw [this, hdl2, hdl1]

/-- A pull neither returns nor creates a pending copy of a message key that
has no pending copy in the queue. -/
theorem pull_no_pending_step {st : QueueState} {mid : String}
    (h : ∀ m ∈ st.messages, m.message_id = mid → m.status ≠ Status.pending)
    (now : Nat) (topic : String) (mm vt : Nat) :
    (∀ m ∈ (pullMessages st now topic mm vt).2, m.message_id ≠ mid) ∧
    (∀ m ∈ (pullMessages st now topic mm vt).1.messages,
      m.message_id = mid → m.status ≠ Status.pending) := by
  constructor
  · intro m hm hmid
    simp only [pullMessages, List.mem_map] at hm
    obtain ⟨m0, hm0, rfl⟩ := hm
    have h0 := mem_pullSelected hm0
    exact h m0 h0.1 hmid h0.2.2.1
  · intro m hm hmid
    simp only [pullMessages, List.mem_map] at hm
    obtain ⟨m0, hm0, rfl⟩ := hm
    unfold pullUpdate at hmid ⊢
    by_cases hc : m0.id ∈ (pullSelected st now topic mm).map (fun x => x.id)
    · rw [if_pos hc]
      simp
    · rw [if_neg hc] at hmid ⊢
      exact h m0 hm0 hmid

/-- No sequence of pulls ever returns a message key that has no pending copy
in the queue. -/
theorem runPulls_no_pending {mid : String} :
    ∀ (pulls : List (Nat × String × Nat × Nat)) (st : QueueState),
    (∀ m ∈ st.messages, m.message_id = mid → m.status ≠ Status.pending) →
    ∀ m ∈ (runPulls st pulls).2, m.message_id ≠ mid := by
  intro pulls
  induction pulls with
  | nil =>
    intro st _ m hm
    simp [runPulls] at hm
  | cons a rest ih =>
    intro st h m hm
    simp only [runPulls, List.mem_append] at hm
    rcases hm with hm | hm
    · exact (pull_no_pending_step h a.1 a.2.1 a.2.2.1 a.2.2.2).1 m hm
    · exact ih _ ((pull_no_pending_step h a.1 a.2.1 a.2.2.1 a.2.2.2).2) m hm

/-- C6 (amended): a fresh message with a unique message key and retry budget
`max_retries` is dead-lettered exactly once after `max_retries + 1` nacks (the
code dead-letters on the nack that finds `retry_count` already at
`max_retries`, so the budget admits `max_retries` requeues first), and from
then on no sequence of pulls ever returns it. -/
theorem nacked_to_exhaustion_dead_letters_once
    (st : QueueState) (msg : QMessage) (nows : List Nat) (lastNow : Nat)
    (pulls : List (Nat × String × Nat × Nat))
    (hmem : msg ∈ st.messages)
    (hall : ∀ m ∈ st.messages, m.message_id = msg.message_id → m = msg)
    (hfresh : msg.retry_count = 0)
    (hlen : nows.length = msg.max_retries)
    (hdl : countDeadLetters st.dead_letters msg.message_id = 0) :
    countDeadLetters
      (nackMessage (iterNack st nows msg.message_id) lastNow
        msg.message_id).dead_letters msg.message_id = 1 ∧
    ∀ m ∈ (runPulls
        (nackMessage (iterNack st nows msg.message_id) lastNow msg.message_id)
        pulls).2,
      m.message_id ≠ msg.message_id := by
  obtain ⟨row2, hmem2, hall2, hmid2, hrc2, hmax2, hdl2⟩ :=
    iterNack_invariant nows st msg hmem hall rfl (by omega)
  have hfind : (iterNack st nows msg.message_id).messages.find?
      (fun m => decide (m.message_id = msg.message_id)) = some row2 := by
    cases hf : (iterNack st nows msg.message_id).messages.find?
        (fun m => decide (m.message_id = msg.message_id)) with
    | none =>
      exfalso
      have h := List.find?_eq_none.mp hf row2 hmem2
      simp [hmid2] at h
    | some y =>
      have hy := List.find?_some hf
      have hymem := List.mem_of_find?_eq_some hf
      simp only [decide_eq_true_eq] at hy
      rw [hall2 y hymem hy]
  have hge : row2.max_retries ≤ row2.retry_count := by omega
  have hcontract := nack_contract (iterNack st nows msg.message_id) lastNow
    msg.message_id row2 hfind
  obtain ⟨hdlEq, _, hfailed⟩ := hcontract.1 hge
  constructor
  · rw [hdlEq]
    unfold countDeadLetters at *
    rw [List.countP_append]
    simp [mkDeadLetter, hdl2, hdl]
  · exact runPulls_no_pending pulls _ (fun m hm hmid => by
      rw [hfailed m hm hmid]
      simp)

/-- Witness for `nacked_to_exhaustion_dead_letters_once` on a concrete
one-message queue with `max_retries = 1`, nacked twice and then pulled. -/
theorem nacked_to_exhaustion_witness :
    countDeadLetters
      (nackMessage
        (iterNack
          { messages := [{ id := 1, topic := "t", message_id := "m1", payload := "p",
                           priority := 0, status := Status.processing, retry_count := 0,
                           max_retries := 1, visibility_timeout := some 30,
                           scheduled_at := 0 }],
            dead_letters := [] } [0] "m1") 5 "m1").dead_letters "m1" = 1 :=
  (nacked_to_exhaustion_dead_letters_once
    { messages := [{ id := 1, topic := "t", message_id := "m1", payload := "p",
                     priority := 0, status := Status.processing, retry_count := 0,
                     max_retries := 1, visibility_timeout := some 30,
                     scheduled_at := 0 }],
      dead_letters := [] }
    { id := 1, topic := "t", message_id := "m1", payload := "p",
      priority := 0, status := Status.processing, retry_count := 0,
      max_retries := 1, visibility_timeout := some 30, scheduled_at := 0 }
    [0] 5 [(1000, "t", 5, 60)]
    (by decide) (by decide) (by decide) (by decide) (by decide)).1

/-- C7: the code never reclaims an expired lease — `_pull_messages` selects
only `status = 'pending'` rows, so a `processing` message whose
`visibility_timeout` has long passed is not returned by a later pull on its
topic (and the pull leaves the state unchanged), although the specification
says it must be treated as available again. -/
theorem expired_lease_not_reclaimed :
    (pullMessages
      { messages := [{ id := 1, topic := "t", message_id := "m1", payload := "p",
                       priority := 0, status := Status.processing, retry_count := 0,
                       max_retries := 3, visibility_timeout := some 30,
                       scheduled_at := 0 }],
        dead_letters := [] } 100 "t" 10 60).2 = [] ∧
    (pullMessages
      { messages := [{ id := 1, topic := "t", message_id := "m1", payload := "p",
                       priority := 0, status := Status.processing, retry_count := 0,
                       max_retries := 3, visibility_timeout := some 30,
                       scheduled_at := 0 }],
        dead_letters := [] } 100 "t" 10 60).1 =
      { messages := [{ id := 1, topic := "t", message_id := "m1", payload := "p",
                       priority := 0, status := Status.processing, retry_count := 0,
                       max_retries := 3, visibility_timeout := some 30,
                       scheduled_at := 0 }],
        dead_letters := [] } := by
  decide

end PgQueue

namespace Orchestrator

/-- C2 counterexample: on the chapter-marker regex path the split/rejoin
round-trip loses content — `re.split` removes the matched marker
(`Chapter 1`) and the survivors are stripped, so concatenating the returned
chapter texts does not reproduce the input. -/
theorem split_rejoin_counterexample :
    split_into_chapters ("Chapter 1 hello").data = [("hello").data] ∧
    concatChapters (split_into_chapters ("Chapter 1 hello").data) ≠
      ("Chapter 1 hello").data := by
  decide

/-- C2 (amended): the split/rejoin round-trip preserves the content exactly
on the whole-content-as-one-chapter fallback path (no chapter pattern splits
the text and there are at most 20 paragraphs); on the regex path the matched
markers and surrounding whitespace are removed, and on the
paragraph-grouping path the paragraph separators between groups are not part
of any chapter, so plain concatenation reproduces the input only on this
last-resort path. -/
theorem split_single_chapter_preserves (content : List Char)
    (hpat : ∀ p ∈ chapter_patterns, (reSplit p content).length ≤ 1)
    (hpar : (splitParagraphs content).length ≤ 20) :
    split_into_chapters content = [content] ∧
    concatChapters (split_into_chapters content) = content := by
  have hfind : chapter_patterns.find?
      (fun p => decide (1 < (reSplit p content).length)) = none := by
    rw [List.find?_eq_none]
    intro p hp
    have h := hpat p hp
    simp
    omega
  have hsplit : split_into_chapters content = [content] := by
    unfold split_into_chapters
    rw [hfind]
    have h20 : ¬ 20 < (splitParagraphs content).length := by omega
    simp [h20]
  refine ⟨hsplit, ?_⟩
  rw [hsplit]
  simp [concatChapters]

/-- Witness for `split_single_chapter_preserves` on a marker-free text. -/
theorem split_single_chapter_preserves_witness :
    split_into_chapters ("hello world").data = [("hello world").data] ∧
    concatChapters (split_into_chapters ("hello world").data) =
      ("hello world").data :=
  split_single_chapter_preserves ("hello world").data (by decide) (by decide)

end Orchestrator

namespace Combination

/-- C1: the final assembled document of the combination worker is NOT
invariant under the chapter-completion order.  For a two-chapter book where
chapter 1 completes before chapter 0, the cursor `chapters[last_check_count:]`
over the index-sorted snapshot collects chapter 1 twice and chapter 0 never,
so the final text differs from (and drops a chapter of) the in-order run. -/
theorem combination_depends_on_completion_order :
    workerFinalText [{ index := 0, text := "A" }, { index := 1, text := "B" }] ≠
      workerFinalText [{ index := 1, text := "B" }, { index := 0, text := "A" }] := by
  decide

end Combination

namespace Gemini

/-- C8: when `record_error` raises a credential's error count to 5 or more
the credential is deactivated, and the scheduled reactivation — after
`min(300, 60 * 2 ** (errorCount - 5))` seconds of cooldown — reactivates it
with the error count reduced by 2. -/
theorem credential_recovery (ks : APIKeyStatus) (h : 5 ≤ ks.error_count + 1) :
    (record_error ks).error_count = ks.error_count + 1 ∧
    (record_error ks).is_active = false ∧
    reactivation_cooldown (record_error ks) =
      min 300 (60 * 2 ^ (ks.error_count + 1 - 5)) ∧
    (reactivate_key_after_cooldown (record_error ks)).is_active = true ∧
    (reactivate_key_after_cooldown (record_error ks)).error_count =
      ks.error_count + 1 - 2 := by
  unfold record_error reactivation_cooldown reactivate_key_after_cooldown
  rw [if_pos h]
  exact ⟨rfl, rfl, rfl, rfl, rfl⟩

/-- Witness for `credential_recovery`: a credential at 4 errors receives its
5th error, is deactivated with a 60-second cooldown, and comes back with
`error_count = 3`. -/
theorem credential_recovery_witness :
    (record_error ksSample).error_count = ksSample.error_count + 1 ∧
    (record_error ksSample).is_active = false ∧
    reactivation_cooldown (record_error ksSample) =
      min 300 (60 * 2 ^ (ksSample.error_count + 1 - 5)) ∧
    (reactivate_key_after_cooldown (record_error ksSample)).is_active = true ∧
    (reactivate_key_after_cooldown (record_error ksSample)).error_count =
      ksSample.error_count + 1 - 2 :=
  credential_recovery ksSample (by decide)

/-- Behavior of the retry loop from any starting attempt: at most `fuel`
attempts; `None` when no attempt succeeds; one fresh credential per attempt;
an error recorded on the credential of every attempt that raised; a
`2 ** attempt` backoff after every raising attempt that was not the last
performed. -/
theorem translateLoop_spec (backend : Nat → BackendResponse)
    (keyOf : Nat → String) (ck : String) :
    ∀ (fuel attempt : Nat) (cache : List (String × String)),
    (translateLoop backend keyOf ck attempt fuel cache).backendCalls ≤ fuel ∧
    ((∀ j, j < fuel → ∀ t, backend (attempt + j) ≠ BackendResponse.ok t) →
      (translateLoop backend keyOf ck attempt fuel cache).result = none) ∧
    (∀ j, j < (translateLoop backend keyOf ck attempt fuel cache).backendCalls →
      TransEvent.getBestKey (keyOf (attempt + j)) ∈
        (translateLoop backend keyOf ck attempt fuel cache).events) ∧
    (∀ j, j < (translateLoop backend keyOf ck attempt fuel cache).backendCalls →
      backend (attempt + j) = BackendResponse.exc →
      TransEvent.recordError (keyOf (attempt + j)) ∈
        (translateLoop backend keyOf ck attempt fuel cache).events) ∧
    (∀ j, j + 1 < (translateLoop backend keyOf ck attempt fuel cache).backendCalls →
      backend (attempt + j) = BackendResponse.exc →
      TransEvent.sleep (2 ^ (attempt + j)) ∈
        (translateLoop backend keyOf ck attempt fuel cache).events) := by
  intro fuel
  induction fuel with
  | zero =>
    intro attempt cache
    refine ⟨Nat.le_refl 0, fun _ => rfl, ?_, ?_, ?_⟩
    · intro j hj
      simp [translateLoop] at hj
    · intro j hj
      simp [translateLoop] at hj
    · intro j hj
      simp [translateLoop] at hj
  | succ fuel ih =>
    intro attempt cache
    cases hb : backend attempt with
    | ok t =>
      simp only [translateLoop, hb]
      refine ⟨by omega, ?_, ?_, ?_, ?_⟩
      · intro hyp
        exfalso
        have h0 := hyp 0 (by omega) t
        rw [Nat.add_zero] at h0
        exact h0 hb
      · intro j hj
        have hj0 : j = 0 := by omega
        subst hj0
        rw [Nat.add_zero]
        simp
      · intro j hj hexc
        have hj0 : j = 0 := by omega
        subst hj0
        rw [Nat.add_zero] at hexc
        rw [hb] at hexc
        exact absurd hexc (by simp)
      · intro j hj
        exfalso
        omega
    | empty =>
      obtain ⟨ih1, ih2, ih3, ih4, ih5⟩ := ih (attempt + 1) cache
      simp only [translateLoop, hb]
      refine ⟨by omega, ?_, ?_, ?_, ?_⟩
      · intro hyp
        exact ih2 (fun j hj t => by
          have h1 := hyp (j + 1) (by omega) t
          rwa [show attempt + (j + 1) = attempt + 1 + j by omega] at h1)
      · intro j hj
        cases j with
        | zero =>
          rw [Nat.add_zero]
          exact List.mem_cons_self _ _
        | succ j2 =>
          rw [show attempt + (j2 + 1) = attempt + 1 + j2 by omega]
          exact List.mem_cons_of_mem _ (ih3 j2 (by omega))
      · intro j hj hexc
        cases j with
        | zero =>
          rw [Nat.add_zero, hb] at hexc
          exact absurd hexc (by simp)
        | succ j2 =>
          rw [show attempt + (j2 + 1) = attempt + 1 + j2 by omega] at hexc ⊢
          exact List.mem_cons_of_mem _ (ih4 j2 (by omega) hexc)
      · intro j hj hexc
        cases j with
        | zero =>
          rw [Nat.add_zero, hb] at hexc
          exact absurd hexc (by simp)
        | succ j2 =>
          rw [show attempt + (j2 + 1) = attempt + 1 + j2 by omega] at hexc ⊢
          exact List.mem_cons_of_mem _ (ih5 j2 (by omega) hexc)
    | exc =>
      by_cases hf : fuel = 0
      · subst hf
        simp only [translateLoop, hb, if_pos]
        refine ⟨by omega, fun _ => by simp, ?_, ?_, ?_⟩
        · intro j hj
          have hj0 : j = 0 := by omega
          subst hj0
          rw [Nat.add_zero]
          simp
        · intro j hj _
          have hj0 : j = 0 := by omega
          subst hj0
          rw [Nat.add_zero]
          simp
        · intro j hj
          exfalso
          omega
      · obtain ⟨ih1, ih2, ih3, ih4, ih5⟩ := ih (attempt + 1) cache
        simp only [translateLoop, hb, if_neg hf]
        refine ⟨by omega, ?_, ?_, ?_, ?_⟩
        · intro hyp
          exact ih2 (fun j hj t => by
            have h1 := hyp (j + 1) (by omega) t
            rwa [show attempt + (j + 1) = attempt + 1 + j by omega] at h1)
        · intro j hj
          cases j with
          | zero =>
            rw [Nat.add_zero]
            exact List.mem_cons_self _ _
          | succ j2 =>
            rw [show attempt + (j2 + 1) = attempt + 1 + j2 by omega]
            refine List.mem_cons_of_mem _ (List.mem_cons_of_mem _
              (List.mem_cons_of_mem _ (ih3 j2 (by omega))))
        · intro j hj hexc
          cases j with
          | zero =>
            rw [Nat.add_zero]
            exact List.mem_cons_of_mem _ (List.mem_cons_self _ _)
          | succ j2 =>
            rw [show attempt + (j2 + 1) = attempt + 1 + j2 by omega] at hexc ⊢
            refine List.mem_cons_of_mem _ (List.mem_cons_of_mem _
              (List.mem_cons_of_mem _ (ih4 j2 (by omega) hexc)))
        · intro j hj hexc
          cases j with
          | zero =>
            rw [Nat.add_zero]
            exact List.mem_cons_of_mem _ (List.mem_cons_of_mem _
              (List.mem_cons_self _ _))
          | succ j2 =>
            rw [show attempt + (j2 + 1) = attempt + 1 + j2 by omega] at hexc ⊢
            refine List.mem_cons_of_mem _ (List.mem_cons_of_mem _
              (List.mem_cons_of_mem _ (ih5 j2 (by omega) hexc)))

/-- C9 (amended): `_translate_with_retry` performs at most `max_retries`
backend attempts and returns a cached result with zero backend calls on a
cache hit; every attempt acquires a fresh credential; an error is recorded on
the credential of every attempt that raised an exception, with a
`2 ** attempt` backoff before the next attempt; and when no attempt succeeds
the call returns `None` instead of a value.  (An attempt whose response is
merely empty is retried silently: no error recorded, no backoff.) -/
theorem translate_with_retry_amended (cache : List (String × String))
    (backend : Nat → BackendResponse) (keyOf : Nat → String)
    (text source_lang target_lang : String) (max_retries : Nat) :
    (translate_with_retry cache backend keyOf text source_lang target_lang
        max_retries).backendCalls ≤ max_retries ∧
    (∀ v, cache.lookup (cacheKey text source_lang target_lang) = some v →
      (translate_with_retry cache backend keyOf text source_lang target_lang
          max_retries).result = some v ∧
      (translate_with_retry cache backend keyOf text source_lang target_lang
          max_retries).backendCalls = 0) ∧
    (cache.lookup (cacheKey text source_lang target_lang) = none →
      (∀ a, a < max_retries → ∀ t, backend a ≠ BackendResponse.ok t) →
      (translate_with_retry cache backend keyOf text source_lang target_lang
          max_retries).result = none) ∧
    (∀ a, a < (translate_with_retry cache backend keyOf text source_lang
          target_lang max_retries).backendCalls →
      TransEvent.getBestKey (keyOf a) ∈
        (translate_with_retry cache backend keyOf text source_lang target_lang
          max_retries).events) ∧
    (∀ a, a < (translate_with_retry cache backend keyOf text source_lang
          target_lang max_retries).backendCalls →
      backend a = BackendResponse.exc →
      TransEvent.recordError (keyOf a) ∈
        (translate_with_retry cache backend keyOf text source_lang target_lang
          max_retries).events) ∧
    (∀ a, a + 1 < (translate_with_retry cache backend keyOf text source_lang
          target_lang max_retries).backendCalls →
      backend a = BackendResponse.exc →
      TransEvent.sleep (2 ^ a) ∈
        (translate_with_retry cache backend keyOf text source_lang target_lang
          max_retries).events) := by
  cases hl : cache.lookup (cacheKey text source_lang target_lang) with
  | some v =>
    have he : translate_with_retry cache backend keyOf text source_lang
        target_lang max_retries =
        { result := some v, cache := cache, events := [], backendCalls := 0 } := by
      unfold translate_with_retry
      rw [hl]
    rw [he]
    refine ⟨by simp, ?_, ?_, ?_, ?_, ?_⟩
    · intro w hw
      injection hw with hvw
      subst hvw
      exact ⟨rfl, rfl⟩
    · intro hnone
      exact absurd hnone (by simp)
    · intro a ha
      exact absurd ha (by simp)
    · intro a ha
      exact absurd ha (by simp)
    · intro a ha
      exact absurd ha (by simp)
  | none =>
    have he : translate_with_retry cache backend keyOf text source_lang
        target_lang max_retries =
        translateLoop backend keyOf (cacheKey text source_lang target_lang)
          0 max_retries cache := by
      unfold translate_with_retry
      rw [hl]
    rw [he]
    obtain ⟨h1, h2, h3, h4, h5⟩ := translateLoop_spec backend keyOf
      (cacheKey text source_lang target_lang) max_retries 0 cache
    refine ⟨h1, ?_, ?_, ?_, ?_, ?_⟩
    · intro w hw
      exact absurd hw (by simp)
    · intro _ hfail
      exact h2 (fun j hj t => by
        rw [Nat.zero_add]
        exact hfail j hj t)
    · intro a ha
      have h := h3 a ha
      rwa [Nat.zero_add] at h
    · intro a ha hexc
      have h := h4 a ha (by rwa [Nat.zero_add])
      rwa [Nat.zero_add] at h
    · intro a ha hexc
      have h := h5 a ha (by rwa [Nat.zero_add])
      rwa [Nat.zero_add] at h

/-- Witness for `translate_with_retry_amended`: three raising attempts on an
empty cache give three recorded errors, two backoffs and a `None` result. -/
theorem translate_with_retry_amended_witness :
    (translate_with_retry [] (fun _ => BackendResponse.exc) (fun _ => "k")
        "hi" "English" "Chinese" 3).backendCalls ≤ 3 ∧
    ([] : List (String × String)).lookup (cacheKey "hi" "English" "Chinese") = none ∧
    (translate_with_retry [] (fun _ => BackendResponse.exc) (fun _ => "k")
        "hi" "English" "Chinese" 3).result = none :=
  ⟨(translate_with_retry_amended [] (fun _ => BackendResponse.exc) (fun _ => "k")
      "hi" "English" "Chinese" 3).1,
   by decide,
   (translate_with_retry_amended [] (fun _ => BackendResponse.exc) (fun _ => "k")
      "hi" "English" "Chinese" 3).2.2.1 (by decide) (fun a _ t h => by
        exact absurd h (by simp))⟩

/-- C9 counterexample: with every backend attempt returning an empty (falsy)
response, the call burns all three attempts and returns `None`, yet records
no error on any credential and performs no backoff sleep — refuting the
claim that an error is recorded (and a `2 ** attempt` wait performed) after
each failed attempt. -/
theorem translate_retry_counterexample :
    (translate_with_retry [] (fun _ => BackendResponse.empty)
        (fun n => toString n) "hello" "English" "Chinese" 3).result = none ∧
    (translate_with_retry [] (fun _ => BackendResponse.empty)
        (fun n => toString n) "hello" "English" "Chinese" 3).backendCalls = 3 ∧
    ((translate_with_retry [] (fun _ => BackendResponse.empty)
        (fun n => toString n) "hello" "English" "Chinese" 3).events.countP
      (fun e => match e with
        | TransEvent.recordError _ => true
        | _ => false)) = 0 ∧
    ((translate_with_retry [] (fun _ => BackendResponse.empty)
        (fun n => toString n) "hello" "English" "Chinese" 3).events.countP
      (fun e => match e with
        | TransEvent.sleep _ => true
        | _ => false)) = 0 := by
  decide

/-- A retry-loop run that returned a value left that value in its cache
under the call's key. -/
theorem translateLoop_caches (backend : Nat → BackendResponse)
    (keyOf : Nat → String) (ck : String) :
    ∀ (fuel attempt : Nat) (cache : List (String × String)) (v : String),
    (translateLoop backend keyOf ck attempt fuel cache).result = some v →
    ((translateLoop backend keyOf ck attempt fuel cache).cache).lookup ck =
      some v := by
  intro fuel
  induction fuel with
  | zero =>
    intro attempt cache v h
    exact absurd h (by simp [translateLoop])
  | succ fuel ih =>
    intro attempt cache v h
    cases hb : backend attempt with
    | ok t =>
      simp only [translateLoop, hb] at h ⊢
      obtain rfl : pyStripStr t = v := by simpa using h
      simp [List.lookup]
    | empty =>
      simp only [translateLoop, hb] at h ⊢
      exact ih (attempt + 1) cache v h
    | exc =>
      by_cases hf : fuel = 0
      · subst hf
        simp only [translateLoop, hb, if_pos] at h
        exact absurd h (by simp)
      · simp only [translateLoop, hb, if_neg hf] at h ⊢
        exact ih (attempt + 1) cache v h

/-- The value returned by `_translate_with_retry` ends up in the returned
cache under the call's cache key. -/
theorem translate_result_cached (cache : List (String × String))
    (backend : Nat → BackendResponse) (keyOf : Nat → String)
    (text source_lang target_lang : String) (max_retries : Nat) (v : String)
    (h : (translate_with_retry cache backend keyOf text source_lang
        target_lang max_retries).result = some v) :
    ((translate_with_retry cache backend keyOf text source_lang target_lang
        max_retries).cache).lookup (cacheKey text source_lang target_lang) =
      some v := by
  cases hl : cache.lookup (cacheKey text source_lang target_lang) with
  | some w =>
    have he : translate_with_retry cache backend keyOf text source_lang
        target_lang max_retries =
        { result := some w, cache := cache, events := [], backendCalls := 0 } := by
      unfold translate_with_retry
      rw [hl]
    rw [he] at h ⊢
    obtain rfl : w = v := by simpa using h
    simpa using hl
  | none =>
    have he : translate_with_retry cache backend keyOf text source_lang
        target_lang max_retries =
        translateLoop backend keyOf (cacheKey text source_lang target_lang)
          0 max_retries cache := by
      unfold translate_with_retry
      rw [hl]
    rw [he] at h ⊢
    exact translateLoop_caches backend keyOf _ max_retries 0 cache v h

/-- C10: the cache key is built from only the first 100 characters of the
text plus the language names, so after a successful translation of `t1`, a
call for any distinct `t2` sharing those first 100 characters (same language
pair, cache unexpired) returns `t1`'s cached translation with zero backend
attempts. -/
theorem cache_key_collision (cache : List (String × String))
    (backend1 backend2 : Nat → BackendResponse) (keyOf1 keyOf2 : Nat → String)
    (t1 t2 source_lang target_lang : String) (r1 r2 : Nat) (v : String)
    (hne : t1 ≠ t2)
    (h100 : pyTakeStr t1 100 = pyTakeStr t2 100)
    (h1 : (translate_with_retry cache backend1 keyOf1 t1 source_lang
        target_lang r1).result = some v) :
    (translate_with_retry
        (translate_with_retry cache backend1 keyOf1 t1 source_lang target_lang
          r1).cache
        backend2 keyOf2 t2 source_lang target_lang r2).result = some v ∧
    (translate_with_retry
        (translate_with_retry cache backend1 keyOf1 t1 source_lang target_lang
          r1).cache
        backend2 keyOf2 t2 source_lang target_lang r2).backendCalls = 0 := by
  have hkey : cacheKey t2 source_lang target_lang =
      cacheKey t1 source_lang target_lang := by
    unfold cacheKey
    rw [h100]
  have hcached := translate_result_cached cache backend1 keyOf1 t1 source_lang
    target_lang r1 v h1
  generalize hC : (translate_with_retry cache backend1 keyOf1 t1 source_lang
      target_lang r1).cache = C at hcached ⊢
  unfold translate_with_retry
  rw [hkey, hcached]
  exact ⟨rfl, rfl⟩

/-- Witness for `cache_key_collision`: two 101-character texts differing only
in their last character; the second call returns the translation of the
first even though its own backend would raise. -/
theorem cache_key_collision_witness :
    (translate_with_retry
        (translate_with_retry [] (fun _ => BackendResponse.ok "hi")
          (fun _ => "k") (String.mk (List.replicate 100 'a') ++ "x")
          "English" "Chinese" 3).cache
        (fun _ => BackendResponse.exc) (fun _ => "k")
        (String.mk (List.replicate 100 'a') ++ "y")
        "English" "Chinese" 3).result = some "hi" ∧
    (translate_with_retry
        (translate_with_retry [] (fun _ => BackendResponse.ok "hi")
          (fun _ => "k") (String.mk (List.replicate 100 'a') ++ "x")
          "English" "Chinese" 3).cache
        (fun _ => BackendResponse.exc) (fun _ => "k")
        (String.mk (List.replicate 100 'a') ++ "y")
        "English" "Chinese" 3).backendCalls = 0 :=
  cache_key_collision [] (fun _ => BackendResponse.ok "hi")
    (fun _ => BackendResponse.exc) (fun _ => "k") (fun _ => "k")
    (String.mk (List.replicate 100 'a') ++ "x")
    (String.mk (List.replicate 100 'a') ++ "y")
    "English" "Chinese" 3 3 "hi" (by decide) (by decide) (by decide)

end Gemini
